import Mathlib

/-!
Shallow embedding of `src/streamlit_app.py` (RTT-Trajectories).

A pandas `DataFrame` is modelled as a `Table`: a header of column names and a
list of rows, each row a list of `Value`s.  Cell values are strings, rational
numbers (standing for the floats/ints pandas reads from a CSV), or datetimes
(an `Int` timestamp together with a timezone-awareness flag).  The Streamlit
widgets are external collaborators; their current values enter the embedded
functions as explicit parameters (checkbox state, per-column widget inputs,
per-month number inputs).  Fallible lookups (pandas `KeyError` on a missing
column) are modelled with `Option`.
-/

/-- A cell value of a loaded dataframe: a string, a numeric value, or a
datetime (timestamp plus timezone-awareness flag). -/
inductive Value where
  | str (s : String)
  | num (q : Rat)
  | date (t : Int) (aware : Bool)
deriving DecidableEq, Repr

/-- A dataframe: column names plus rows of cells. -/
structure Table where
  header : List String
  rows : List (List Value)
deriving DecidableEq, Repr

/-- Cell access with pandas-style positional default (out-of-range reads an
empty-string cell; embedded tables are rectangular so this is never hit by
well-formed inputs). -/
def cell (r : List Value) (j : Nat) : Value := r.getD j (Value.str "")

/-- Index of a column name in a header (`df.columns` lookup); `none` models a
pandas `KeyError`. -/
def idxOf : List String → String → Option Nat
  | [], _ => none
  | h :: hs, c => if h = c then some 0 else (idxOf hs c).map (· + 1)

/-- The values of column `j`, top to bottom (`df[col]`). -/
def getColAt (t : Table) (j : Nat) : List Value := t.rows.map fun r => cell r j

/-- Whether a cell holds a numeric value. -/
def isNumV : Value → Bool
  | .num _ => true
  | _ => false

/-- Whether a cell holds a datetime value. -/
def isDateV : Value → Bool
  | .date _ _ => true
  | _ => false

/-- Whether a cell holds a timezone-naive datetime value. -/
def isNaiveDate : Value → Bool
  | .date _ false => true
  | _ => false

/-- Column dtypes as pandas reports them for CSV-loaded data: a column of
numbers is `numeric`, a column of datetimes is `datetime`, anything else
(including mixed and empty columns) is `object`.  `read_csv` never yields a
categorical dtype, but the constructor is kept because the source tests for
it. -/
inductive Dtype where
  | object
  | numeric
  | datetime
  | categorical
deriving DecidableEq, Repr

/-- Dtype inference for a column of values. -/
def colDtype (vs : List Value) : Dtype :=
  if vs ≠ [] ∧ vs.all isNumV then .numeric
  else if vs ≠ [] ∧ vs.all isDateV then .datetime
  else .object

/-- `pandas.api.types.is_object_dtype`. -/
def is_object_dtype : Dtype → Bool
  | .object => true
  | _ => false

/-- `pandas.api.types.is_numeric_dtype`. -/
def is_numeric_dtype : Dtype → Bool
  | .numeric => true
  | _ => false

/-- `pandas.api.types.is_datetime64_any_dtype`. -/
def is_datetime_any_dtype : Dtype → Bool
  | .datetime => true
  | _ => false

/-- `pandas.api.types.is_categorical_dtype`. -/
def is_categorical_dtype : Dtype → Bool
  | .categorical => true
  | _ => false

/-- Helper for `uniqueVals`: accumulate first occurrences. -/
def uniqueAux : List Value → List Value → List Value
  | [], acc => acc.reverse
  | v :: vs, acc => if v ∈ acc then uniqueAux vs acc else uniqueAux vs (v :: acc)

/-- `Series.unique()`: distinct values in order of first appearance. -/
def uniqueVals (vs : List Value) : List Value := uniqueAux vs []

/-- `Series.nunique()`: number of distinct values. -/
def nunique (vs : List Value) : Nat := (uniqueVals vs).length

/-- Split a character list at every dash. -/
def splitOnDash : List Char → List (List Char)
  | [] => [[]]
  | c :: cs =>
    match splitOnDash cs with
    | [] => [[c]]
    | g :: gs => if c = '-' then [] :: g :: gs else (c :: g) :: gs

/-- Decimal digit value of a character, if it is a digit. -/
def digitVal (c : Char) : Option Nat :=
  if 48 ≤ c.toNat ∧ c.toNat ≤ 57 then some (c.toNat - 48) else none

/-- Helper for `digitsToNat`: accumulate a decimal number. -/
def digitsAux : List Char → Nat → Option Nat
  | [], acc => some acc
  | c :: cs, acc =>
    match digitVal c with
    | some d => digitsAux cs (acc * 10 + d)
    | none => none

/-- Parse a nonempty all-digit character list as a decimal number. -/
def digitsToNat : List Char → Option Nat
  | [] => none
  | c :: cs => digitsAux (c :: cs) 0

/-- Model of the standard date parser (`pd.to_datetime`) on ISO `YYYY-MM-DD`
strings: yields a timezone-naive timestamp encoded as a day count; any other
string fails to parse. -/
def parseDate (s : String) : Option Int :=
  match splitOnDash s.data with
  | [y, m, d] =>
    match digitsToNat y, digitsToNat m, digitsToNat d with
    | some yn, some mn, some dn =>
      if 1 ≤ mn ∧ mn ≤ 12 ∧ 1 ≤ dn ∧ dn ≤ 31 then
        some (((yn * 12 + (mn - 1)) * 31 + (dn - 1) : Nat) : Int)
      else none
    | _, _, _ => none
  | _ => none

/-- `pd.to_datetime(df[col])` on an object column: succeeds only when every
cell is a string the parser accepts (a failure raises, which the source
swallows, leaving the column unchanged). -/
def tryParseAll : List Value → Option (List Value)
  | [] => some []
  | .str s :: vs =>
    match parseDate s, tryParseAll vs with
    | some d, some ds => some (Value.date d false :: ds)
    | _, _ => none
  | .num _ :: _ => none
  | .date _ _ :: _ => none

/-- `df[col].dt.tz_localize(None)`: drop timezone information, keeping the
local timestamp. -/
def tzLocalizeNone (vs : List Value) : List Value :=
  vs.map fun v =>
    match v with
    | .date d _ => .date d false
    | w => w

/-- The per-column datetime-normalization step of `filter_dataframe`
(lines 42-50): object columns wholly parseable as dates are converted, then
datetime columns are made timezone-naive. -/
def convertColVals (vs : List Value) : List Value :=
  let vs1 :=
    if is_object_dtype (colDtype vs) then
      match tryParseAll vs with
      | some ds => ds
      | none => vs
    else vs
  if is_datetime_any_dtype (colDtype vs1) then tzLocalizeNone vs1 else vs1

/-- The whole-table datetime-normalization loop of `filter_dataframe`:
each column converted independently. -/
def convertTable (t : Table) : Table :=
  let newCols := (List.range t.header.length).map fun j => convertColVals (getColAt t j)
  ⟨t.header, (List.range t.rows.length).map fun i => newCols.map fun c => c.getD i (Value.str "")⟩

/-- The four classifications the dispatch loop of `filter_dataframe`
distinguishes (spec 4.1 "Type Classifier"). -/
inductive Classification where
  | categorical
  | numeric
  | temporal
  | text
deriving DecidableEq, Repr

/-- The branch taken by the dispatch chain of `filter_dataframe`
(lines 59-95): categorical dtype or fewer than 100 distinct values first,
then numeric dtype, then datetime dtype, else free text. -/
def classifyColumn (vs : List Value) : Classification :=
  if is_categorical_dtype (colDtype vs) = true ∨ nunique vs < 100 then .categorical
  else if is_numeric_dtype (colDtype vs) = true then .numeric
  else if is_datetime_any_dtype (colDtype vs) = true then .temporal
  else .text

/-- Numeric contents of a column (`df[col]` as floats). -/
def ratsOf (vs : List Value) : List Rat :=
  vs.filterMap fun v =>
    match v with
    | .num q => some q
    | _ => none

/-- Minimum of two rationals (kept executable through `Rat.blt`). -/
def ratMin (a b : Rat) : Rat := if Rat.blt b a then b else a

/-- Maximum of two rationals (kept executable through `Rat.blt`). -/
def ratMax (a b : Rat) : Rat := if Rat.blt a b then b else a

/-- `float(df[col].min())`. -/
def colMin (vs : List Value) : Rat :=
  match ratsOf vs with
  | [] => 0
  | q :: qs => qs.foldl ratMin q

/-- `float(df[col].max())`. -/
def colMax (vs : List Value) : Rat :=
  match ratsOf vs with
  | [] => 0
  | q :: qs => qs.foldl ratMax q

/-- The slider step of the numeric branch, line 69: `(_max - _min) / 100`,
with no special-casing of a degenerate `min == max` column. -/
def numericStep (vs : List Value) : Rat := (colMax vs - colMin vs) / 100

/-- Whether the second character list occurs at the head of the first. -/
def matchesHere : List Char → List Char → Bool
  | _, [] => true
  | [], _ :: _ => false
  | c :: cs, p :: ps => (c == p) && matchesHere cs ps

/-- Whether the second character list occurs anywhere in the first. -/
def containsSub : List Char → List Char → Bool
  | [], pat => matchesHere [] pat
  | c :: cs, pat => matchesHere (c :: cs) pat || containsSub cs pat

/-- Whether `pat` occurs in `s` (model of `str.contains`). -/
def strContainsSub (s pat : String) : Bool := containsSub s.data pat.data

/-- `astype(str)` on one cell. -/
def valToStr : Value → String
  | .str s => s
  | .num q => toString q
  | .date d _ => toString d

/-- The current value of the one widget rendered for a filtered column:
a multiselect selection, a slider range, a date-picker endpoint list, or a
text field; `noInput` stands for a widget left at its default. -/
inductive UserInput where
  | cats (selected : List Value)
  | range (lo hi : Rat)
  | dates (picks : List Int)
  | text (s : String)
  | noInput
deriving DecidableEq, Repr

/-- The row predicate the dispatch chain applies for one filtered column,
given the column's current values and the widget input (lines 59-95).
Widget defaults mirror the source: all distinct values for the multiselect,
the column's `[min, max]` for the slider, no constraint for an incomplete
date range or an empty text field. -/
def dispatchPred (vs : List Value) (u : UserInput) : Value → Bool :=
  match classifyColumn vs with
  | .categorical =>
    let allowed :=
      match u with
      | .cats sel => sel
      | _ => uniqueVals vs
    fun v => decide (v ∈ allowed)
  | .numeric =>
    let bounds :=
      match u with
      | .range a b => (a, b)
      | _ => (colMin vs, colMax vs)
    fun v =>
      match v with
      | .num q => decide (bounds.1 ≤ q ∧ q ≤ bounds.2)
      | _ => false
  | .temporal =>
    match u with
    | .dates [a, b] =>
      fun v =>
        match v with
        | .date d _ => decide (a ≤ d ∧ d ≤ b)
        | _ => false
    | _ => fun _ => true
  | .text =>
    match u with
    | .text s => if s = "" then fun _ => true else fun v => strContainsSub (valToStr v) s
    | _ => fun _ => true

/-- One iteration of the `for column in to_filter_columns` loop: reduce the
current table to the rows whose cell in that column passes the dispatched
predicate. -/
def applyFilterStep (t : Table) (c : String) (u : UserInput) : Table :=
  match idxOf t.header c with
  | none => t
  | some j =>
    ⟨t.header, t.rows.filter fun r => dispatchPred (getColAt t j) u (cell r j)⟩

/-- `filter_dataframe` (lines 24-97): if the "Add filters" checkbox is off,
return the input unchanged; otherwise normalize datetimes and fold the
dispatch loop over the user-chosen columns. -/
def filter_dataframe (modify : Bool) (toFilter : List (String × UserInput)) (df : Table) : Table :=
  if modify then
    toFilter.foldl (fun acc cu => applyFilterStep acc cu.1 cu.2) (convertTable df)
  else df

/-- A resolved filter constraint, one of the four kinds the dispatcher can
apply (spec 3 "Filter Constraint"): the widget values already substituted
into the masks of lines 65, 77, 89 and 95. -/
inductive Constraint where
  | allowedSet (allowed : List Value)
  | numRange (lo hi : Rat)
  | dateRange (lo hi : Int)
  | textContains (pat : String)

/-- The row predicate of one resolved constraint. -/
def constraintPred : Constraint → Value → Bool
  | .allowedSet allowed, v => decide (v ∈ allowed)
  | .numRange lo hi, v =>
    match v with
    | .num q => decide (lo ≤ q ∧ q ≤ hi)
    | _ => false
  | .dateRange lo hi, v =>
    match v with
    | .date d _ => decide (lo ≤ d ∧ d ≤ hi)
    | _ => false
  | .textContains pat, v =>
    if pat = "" then true else strContainsSub (valToStr v) pat

/-- Apply one resolved constraint to the named column (one `df = df[mask]`
statement of the loop). -/
def constraintStep (t : Table) (c : String) (k : Constraint) : Table :=
  match idxOf t.header c with
  | none => t
  | some j => ⟨t.header, t.rows.filter fun r => constraintPred k (cell r j)⟩

/-- Apply a fixed list of resolved per-column constraints left to right
(the AND-composition of the loop's masks). -/
def applyConstraints (cs : List (String × Constraint)) (t : Table) : Table :=
  cs.foldl (fun acc ck => constraintStep acc ck.1 ck.2) t

/-- The load-time rename of line 17:
`replace({'Clock Stops': 'Non-Admitted Clock Stops'})` on one cell. -/
def replaceClockStops (v : Value) : Value :=
  if v = Value.str "Clock Stops" then Value.str "Non-Admitted Clock Stops" else v

/-- Replace the cell at position `j` of a row (out-of-range is a no-op, as
for `List.set`). -/
def setCell : List Value → Nat → Value → List Value
  | [], _, _ => []
  | _ :: vs, 0, v => v :: vs
  | w :: vs, j + 1, v => w :: setCell vs j v

/-- `load_data` after the CSV is read (lines 15-18): rename `Clock Stops`
to `Non-Admitted Clock Stops` in the `Type` column; a missing `Type` column
is a `KeyError`, modelled by `none`. -/
def load_data (t : Table) : Option Table :=
  (idxOf t.header "Type").map fun j =>
    ⟨t.header, t.rows.map fun r => setCell r j (replaceClockStops (cell r j))⟩

/-- Constructor rank used to totalize the sort order across cell kinds
(a real pandas groupby key column is homogeneous). -/
def valRank : Value → Nat
  | .num _ => 0
  | .date _ _ => 1
  | .str _ => 2

/-- Lexicographic string comparison by code point, as Python compares
strings. -/
def strLtb : List Char → List Char → Bool
  | [], [] => false
  | [], _ :: _ => true
  | _ :: _, [] => false
  | a :: as, b :: bs =>
    if a.toNat < b.toNat then true
    else if b.toNat < a.toNat then false
    else strLtb as bs

/-- Total `≤` on cell values matching the ascending key order of a pandas
groupby: numeric, datetime and string keys each compare naturally. -/
def valLe (a b : Value) : Bool :=
  match a, b with
  | .num x, .num y => decide (x ≤ y)
  | .date x _, .date y _ => decide (x ≤ y)
  | .str x, .str y => !strLtb y.data x.data
  | _, _ => decide (valRank a ≤ valRank b)

/-- Insertion into a `valLe`-sorted list. -/
def insertSortedVal (v : Value) : List Value → List Value
  | [] => [v]
  | w :: ws => if valLe v w then v :: w :: ws else w :: insertSortedVal v ws

/-- Insertion sort by `valLe` (the ascending key sort a pandas groupby
performs with its default `sort=True`). -/
def sortVals : List Value → List Value
  | [] => []
  | v :: vs => insertSortedVal v (sortVals vs)

/-- Numeric content of a cell (`Pathways` entries are numeric). -/
def ratOfVal : Value → Rat
  | .num q => q
  | _ => 0

/-- Sum of the second components over the pairs whose key equals `k`. -/
def sumWhere (k : Value) (pairs : List (Value × Value)) : Rat :=
  pairs.foldl (fun a p => if p.1 = k then a + ratOfVal p.2 else a) 0

/-- `groupby(key, sort=True)[val].sum()` over (key, value) pairs: one output
row per distinct key, keys in ascending order, values summed per key. -/
def groupbySum (pairs : List (Value × Value)) : List (Value × Rat) :=
  (sortVals (uniqueVals (pairs.map Prod.fst))).map fun k => (k, sumWhere k pairs)

/-- The non-split aggregation of `visualize_data` (line 121): restrict to
rows with `Type == metric`, then group by `Month` summing `Pathways`;
`none` models the `KeyError` on a missing required column. -/
def nonSplitAggregate (t : Table) (metric : String) : Option (List (Value × Rat)) :=
  match idxOf t.header "Type", idxOf t.header "Month", idxOf t.header "Pathways" with
  | some jT, some jM, some jP =>
    let matching := t.rows.filter fun r => decide (cell r jT = Value.str metric)
    some (groupbySum (matching.map fun r => (cell r jM, cell r jP)))
  | _, _, _ => none

/-- Full month name, 1-indexed (`strftime("%B")`). -/
def monthName : Nat → String
  | 1 => "January"
  | 2 => "February"
  | 3 => "March"
  | 4 => "April"
  | 5 => "May"
  | 6 => "June"
  | 7 => "July"
  | 8 => "August"
  | 9 => "September"
  | 10 => "October"
  | 11 => "November"
  | 12 => "December"
  | _ => ""

/-- The calendar month after a (year, month) pair. -/
def nextMonth (ym : Nat × Nat) : Nat × Nat :=
  if ym.2 = 12 then (ym.1 + 1, 1) else (ym.1, ym.2 + 1)

/-- `n` consecutive months starting at `ym`. -/
def monthSeq : Nat × Nat → Nat → List (Nat × Nat)
  | _, 0 => []
  | ym, n + 1 => ym :: monthSeq (nextMonth ym) n

/-- Linear month index, for counting months between two month-starts. -/
def monthIndex (ym : Nat × Nat) : Nat := ym.1 * 12 + (ym.2 - 1)

/-- `pd.date_range(start, end, freq='MS')` for month-start endpoints: every
month start from `s` through `e` inclusive. -/
def date_range_MS (s e : Nat × Nat) : List (Nat × Nat) :=
  monthSeq s (monthIndex e + 1 - monthIndex s)

/-- `strftime("%B %Y")`. -/
def fmtMonthYear (ym : Nat × Nat) : String := monthName ym.2 ++ " " ++ toString ym.1

/-- The twelve month labels of `set_trajectories` (lines 138-140):
`date_range("April 2025", "March 2026", freq='MS').strftime("%B %Y")`. -/
def trajMonths : List String := (date_range_MS (2025, 4) (2026, 3)).map fmtMonthYear

/-- The TF selection list of `set_trajectories` (line 134):
`['Total'] + data['TF Name'].unique().tolist()`. -/
def tf_options (data : Table) : List Value :=
  Value.str "Total" ::
    uniqueVals
      (match idxOf data.header "TF Name" with
       | some j => getColAt data j
       | none => [])

/-- The exported trajectory table of `set_trajectories` (lines 142-148):
one row per month label carrying the non-negative integer entered for that
month (`st.number_input(min_value=0, value=0, step=1)`); the uploaded table
and the selected TF option are in scope but unused by the export. -/
def set_trajectories (data : Table) (selectedTF : Value) (inputs : String → Nat) : Table :=
  ⟨["Month", "Pathways"], trajMonths.map fun m => [Value.str m, Value.num ((inputs m : Nat) : Rat)]⟩

/-! ## Concrete tables and columns used by individual claims -/

/-- The exact input of the spec's aggregation example (three rows for metric
`Clock Starts`). -/
def aggClaimTable : Table :=
  ⟨["Month", "Type", "Pathways"],
   [[Value.str "Jan", Value.str "Clock Starts", Value.num 5],
    [Value.str "Jan", Value.str "Clock Starts", Value.num 3],
    [Value.str "Feb", Value.str "Clock Starts", Value.num 2]]⟩

/-- The aggregation example generalized over the four pathway counts, with a
fourth row of a different `Type` that the restriction must drop. -/
def aggGenTable (a b c d : Rat) : Table :=
  ⟨["Month", "Type", "Pathways"],
   [[Value.str "Jan", Value.str "Clock Starts", Value.num a],
    [Value.str "Jan", Value.str "Clock Starts", Value.num b],
    [Value.str "Feb", Value.str "Clock Starts", Value.num c],
    [Value.str "Feb", Value.str "Other", Value.num d]]⟩

/-- A low-cardinality column whose three values have three different
underlying kinds. -/
def mixedLowCardCol : List Value := [Value.num 1, Value.date 7 false, Value.str "x"]

/-- A textual column whose two values parse as dates. -/
def dateColEx : List Value := [Value.str "2024-01-05", Value.str "2024-02-06"]

/-- The parse of `dateColEx` under the embedded date parser. -/
def dateColExParsed : List Value := [Value.date 752932 false, Value.date 752964 false]

/-- A degenerate numeric column: two equal values, so `min == max`. -/
def degenerateNumCol : List Value := [Value.num 5, Value.num 5]

/-! ## C10: unchecked "Add filters" checkbox -/

/-- C10: when the "Add filters" checkbox is not checked, `filter_dataframe`
returns its input table unchanged: no datetime parsing, no timezone
normalization, no constraint applied. -/
theorem filter_dataframe_no_modify_id (cs : List (String × UserInput)) (t : Table) :
    filter_dataframe false cs t = t := rfl

/-! ## C9: trajectory export independent of the TF selection -/

/-- C9: the exported trajectory table of `set_trajectories` does not depend
on which entry of the TF selection list is chosen: two runs differing only in
the selected TF option produce identical tables. -/
theorem set_trajectories_tf_independent (data : Table) (tf1 tf2 : Value)
    (inputs : String → Nat) :
    set_trajectories data tf1 inputs = set_trajectories data tf2 inputs := rfl

/-! ## C8: degenerate numeric range -/

/-- C8 counterexample: on the column `[5, 5]` (so `min == max`) the numeric
branch's slider step `(max - min) / 100` evaluates to zero — it is not
special-cased away from zero as the claim states. -/
theorem numericStep_degenerate_is_zero : numericStep degenerateNumCol = 0 := by
  have h1 : colMin degenerateNumCol = 5 := by decide
  have h2 : colMax degenerateNumCol = 5 := by decide
  unfold numericStep
  rw [h1, h2]
  norm_num

/-- C8 amended: for every numeric column whose minimum equals its maximum the
computed slider step `(max - min) / 100` is exactly zero; the source has no
epsilon clamp. -/
theorem numericStep_degenerate_zero (vs : List Value) (h : colMin vs = colMax vs) :
    numericStep vs = 0 := by
  unfold numericStep
  rw [h]
  simp

/-- Witness for `numericStep_degenerate_zero` at the column `[5, 5]`. -/
theorem numericStep_degenerate_zero_witness :
    colMin degenerateNumCol = colMax degenerateNumCol ∧ numericStep degenerateNumCol = 0 :=
  ⟨by decide, numericStep_degenerate_zero degenerateNumCol (by decide)⟩

/-! ## C2: low-cardinality columns classify as categorical -/

/-- C2: every column with fewer than 100 distinct values is dispatched to the
categorical branch regardless of its underlying value kinds, and the applied
constraint is the allowed-value-set membership test (defaulting to the
column's distinct values when the widget is untouched). -/
theorem low_cardinality_is_categorical (vs sel : List Value) (v : Value)
    (h : nunique vs < 100) :
    classifyColumn vs = Classification.categorical ∧
    dispatchPred vs (UserInput.cats sel) v = decide (v ∈ sel) ∧
    dispatchPred vs UserInput.noInput v = decide (v ∈ uniqueVals vs) := by
  have hc : classifyColumn vs = Classification.categorical := by
    unfold classifyColumn
    rw [if_pos (Or.inr h)]
  refine ⟨hc, ?_, ?_⟩ <;> (unfold dispatchPred; rw [hc])

/-- Witness for `low_cardinality_is_categorical` at a three-valued column
mixing a number, a datetime and a string. -/
theorem low_cardinality_is_categorical_witness :
    nunique mixedLowCardCol < 100 ∧
    (classifyColumn mixedLowCardCol = Classification.categorical ∧
     dispatchPred mixedLowCardCol (UserInput.cats [Value.num 1]) (Value.num 1) =
       decide (Value.num 1 ∈ [Value.num 1]) ∧
     dispatchPred mixedLowCardCol UserInput.noInput (Value.num 1) =
       decide (Value.num 1 ∈ uniqueVals mixedLowCardCol)) :=
  ⟨by decide, low_cardinality_is_categorical mixedLowCardCol [Value.num 1] (Value.num 1) (by decide)⟩

/-! ## C4: shape of the exported trajectory table -/

/-- C4: for every uploaded table, selected TF option and set of month inputs,
the exported trajectory table has header `Month, Pathways`, exactly twelve
rows labeled "April 2025" through "March 2026" in chronological order, two
cells per row, and an integer (a natural number) `Pathways` value in each
row. -/
theorem set_trajectories_shape (data : Table) (tf : Value) (inputs : String → Nat) :
    (set_trajectories data tf inputs).header = ["Month", "Pathways"] ∧
    (set_trajectories data tf inputs).rows.length = 12 ∧
    (set_trajectories data tf inputs).rows.map (fun r => cell r 0) =
      [Value.str "April 2025", Value.str "May 2025", Value.str "June 2025",
       Value.str "July 2025", Value.str "August 2025", Value.str "September 2025",
       Value.str "October 2025", Value.str "November 2025", Value.str "December 2025",
       Value.str "January 2026", Value.str "February 2026", Value.str "March 2026"] ∧
    ∀ r ∈ (set_trajectories data tf inputs).rows,
      r.length = 2 ∧ ∃ n : Nat, cell r 1 = Value.num n := by
  have hm : trajMonths =
      ["April 2025", "May 2025", "June 2025", "July 2025", "August 2025",
       "September 2025", "October 2025", "November 2025", "December 2025",
       "January 2026", "February 2026", "March 2026"] := by rfl
  refine ⟨rfl, ?_, ?_, ?_⟩
  · simp [set_trajectories, hm]
  · simp only [set_trajectories, List.map_map]
    rw [hm]
    rfl
  · intro r hr
    simp only [set_trajectories, List.mem_map] at hr
    obtain ⟨m, _, rfl⟩ := hr
    exact ⟨rfl, inputs m, rfl⟩

/-! ## C1: non-split aggregation -/

/-- C1 counterexample: on the spec's own example input the aggregation does
not yield `[(Jan, 8), (Feb, 2)]` — the groupby sorts its `Month` keys
ascending (lexicographically for strings), so `Feb` comes first. -/
theorem aggregate_example_order_counterexample :
    nonSplitAggregate aggClaimTable "Clock Starts" ≠
      some [(Value.str "Jan", (8 : Rat)), (Value.str "Feb", (2 : Rat))] := by
  have h : nonSplitAggregate aggClaimTable "Clock Starts" =
      some [(Value.str "Feb", (2 : Rat)), (Value.str "Jan", (8 : Rat))] := by
    simp [nonSplitAggregate, aggClaimTable, idxOf, cell, groupbySum, uniqueVals, uniqueAux,
      sortVals, insertSortedVal, valLe, strLtb, sumWhere, ratOfVal, List.filter]
    norm_num
  rw [h]
  decide

/-- C1 amended: non-split aggregation restricts rows to the metric label
(the `Other` row's value `d` never appears), groups the matching rows by
`Month` and sums `Pathways` per month, but orders the output by ascending
`Month` key rather than first appearance: the example yields
`[(Feb, c), (Jan, a + b)]`. -/
theorem aggregate_restrict_group_sum_sorted (a b c d : Rat) :
    nonSplitAggregate (aggGenTable a b c d) "Clock Starts" =
      some [(Value.str "Feb", c), (Value.str "Jan", a + b)] := by
  simp [nonSplitAggregate, aggGenTable, idxOf, cell, groupbySum, uniqueVals, uniqueAux,
    sortVals, insertSortedVal, valLe, strLtb, sumWhere, ratOfVal, List.filter]

/-! ## C3: textual date columns -/

/-- A successful `tryParseAll` produces only timezone-naive datetimes. -/
theorem tryParseAll_all_naive :
    ∀ (vs ds : List Value), tryParseAll vs = some ds → ds.all isNaiveDate = true := by
  intro vs
  induction vs with
  | nil =>
    intro ds h
    simp [tryParseAll] at h
    subst h
    rfl
  | cons v vs ih =>
    intro ds h
    cases v with
    | str s =>
      rcases hp : tryParseAll vs with _ | ds'
      · rcases hd : parseDate s with _ | d <;> simp [tryParseAll, hp, hd] at h
      · rcases hd : parseDate s with _ | d
        · simp [tryParseAll, hp, hd] at h
        · simp [tryParseAll, hp, hd] at h
          subst h
          simp only [List.all_cons, Bool.and_eq_true]
          exact ⟨rfl, ih ds' hp⟩
    | num q => simp [tryParseAll] at h
    | date d aware => simp [tryParseAll] at h

/-- A timezone-naive datetime cell is a datetime cell. -/
theorem isNaive_imp_isDate (v : Value) : isNaiveDate v = true → isDateV v = true := by
  cases v with
  | str s => simp [isNaiveDate]
  | num q => simp [isNaiveDate]
  | date d aware => cases aware <;> simp [isNaiveDate, isDateV]

/-- An all-naive-datetime column is an all-datetime column. -/
theorem all_naive_all_date (ds : List Value) (h : ds.all isNaiveDate = true) :
    ds.all isDateV = true := by
  rw [List.all_eq_true] at h ⊢
  intro x hx
  exact isNaive_imp_isDate x (h x hx)

/-- `tz_localize(None)` is the identity on an already-naive column. -/
theorem tz_of_naive (ds : List Value) (h : ds.all isNaiveDate = true) :
    tzLocalizeNone ds = ds := by
  induction ds with
  | nil => rfl
  | cons v ds ih =>
    simp only [List.all_cons, Bool.and_eq_true] at h
    have hds := ih h.2
    simp only [tzLocalizeNone] at hds
    cases v with
    | str s =>
      simp only [tzLocalizeNone, List.map_cons]
      rw [hds]
    | num q =>
      simp only [tzLocalizeNone, List.map_cons]
      rw [hds]
    | date d aware =>
      cases aware with
      | false =>
        simp only [tzLocalizeNone, List.map_cons]
        rw [hds]
      | true => simp [isNaiveDate] at h

/-- On an all-datetime column the dispatch chain reduces to the cardinality
test: categorical below 100 distinct values, temporal at or above it. -/
theorem classify_all_dates (ws : List Value) (h : ws.all isDateV = true) :
    classifyColumn ws =
      (if nunique ws < 100 then Classification.categorical else Classification.temporal) := by
  cases ws with
  | nil => decide
  | cons w ws' =>
    have hdt : colDtype (w :: ws') = Dtype.datetime := by
      unfold colDtype
      rw [if_neg, if_pos ⟨by simp, h⟩]
      rintro ⟨-, hnum⟩
      simp only [List.all_cons, Bool.and_eq_true] at h hnum
      cases w with
      | str s => simp [isDateV] at h
      | num q => simp [isDateV] at h
      | date d aware => simp [isNumV] at hnum
    unfold classifyColumn
    rw [hdt]
    by_cases hn : nunique (w :: ws') < 100
    · rw [if_pos (Or.inr hn), if_pos hn]
    · have hc : ¬ (is_categorical_dtype Dtype.datetime = true ∨ nunique (w :: ws') < 100) := by
        simp [is_categorical_dtype, hn]
      have hq : ¬ is_numeric_dtype Dtype.datetime = true := by simp [is_numeric_dtype]
      rw [if_neg hc, if_neg hn, if_neg hq]
      rfl

/-- C3 counterexample: the textual column `dateColEx` parses as dates under
the standard parser, yet after conversion the dispatcher classifies it as
categorical — not temporal — because it has fewer than 100 distinct
values. -/
theorem parsed_text_column_not_temporal :
    classifyColumn (convertColVals dateColEx) = Classification.categorical ∧
    Classification.categorical ≠ Classification.temporal := by decide

/-- C3 amended: a textual column wholly parseable as dates is converted to
timezone-naive datetimes, but the dispatcher grants it the temporal
classification (hence the date-range constraint) only when it also has at
least 100 distinct values; the sub-100 cardinality rule takes precedence. -/
theorem parsed_text_columns_dispatch (vs ds : List Value)
    (h1 : is_object_dtype (colDtype vs) = true) (h2 : tryParseAll vs = some ds) :
    convertColVals vs = ds ∧ ds.all isNaiveDate = true ∧
    classifyColumn (convertColVals vs) =
      (if nunique ds < 100 then Classification.categorical else Classification.temporal) := by
  have hnaive := tryParseAll_all_naive vs ds h2
  have hdate := all_naive_all_date ds hnaive
  have hconv : convertColVals vs = ds := by
    simp only [convertColVals]
    rw [if_pos h1, h2]
    by_cases hb : is_datetime_any_dtype (colDtype ds) = true
    · rw [if_pos hb]
      exact tz_of_naive ds hnaive
    · rw [if_neg hb]
  exact ⟨hconv, hnaive, by rw [hconv]; exact classify_all_dates ds hdate⟩

/-- Witness for `parsed_text_columns_dispatch` at the two-valued column of
ISO date strings. -/
theorem parsed_text_columns_dispatch_witness :
    (is_object_dtype (colDtype dateColEx) = true ∧ tryParseAll dateColEx = some dateColExParsed) ∧
    (convertColVals dateColEx = dateColExParsed ∧ dateColExParsed.all isNaiveDate = true ∧
     classifyColumn (convertColVals dateColEx) =
       (if nunique dateColExParsed < 100 then Classification.categorical
        else Classification.temporal)) :=
  ⟨⟨by decide, by decide⟩,
   parsed_text_columns_dispatch dateColEx dateColExParsed (by decide) (by decide)⟩

/-! ## C5: load-time rename -/

/-- `setCell` past the end of a row is a no-op. -/
theorem setCell_of_le :
    ∀ (r : List Value) (j : Nat) (v : Value), r.length ≤ j → setCell r j v = r := by
  intro r
  induction r with
  | nil => intro j v _; rfl
  | cons w ws ih =>
    intro j v h
    cases j with
    | zero => exact absurd h (by simp)
    | succ j =>
      simp only [setCell, List.cons.injEq, true_and]
      exact ih j v (Nat.le_of_succ_le_succ h)

/-- Reading back the written position of `setCell` (in range). -/
theorem cell_setCell_self :
    ∀ (r : List Value) (j : Nat) (v : Value), j < r.length → cell (setCell r j v) j = v := by
  intro r
  induction r with
  | nil => intro j v h; exact absurd h (by simp)
  | cons w ws ih =>
    intro j v h
    cases j with
    | zero => rfl
    | succ j => exact ih j v (Nat.lt_of_succ_lt_succ h)

/-- `setCell` leaves every other position unchanged. -/
theorem cell_setCell_ne :
    ∀ (r : List Value) (j j' : Nat) (v : Value), j' ≠ j →
      cell (setCell r j v) j' = cell r j' := by
  intro r
  induction r with
  | nil => intro j j' v _; rfl
  | cons w ws ih =>
    intro j j' v hne
    cases j with
    | zero =>
      cases j' with
      | zero => exact absurd rfl hne
      | succ j' => rfl
    | succ j =>
      cases j' with
      | zero => rfl
      | succ j' => exact ih j j' v fun hh => hne (by rw [hh])

/-- Out-of-range cell reads give the default cell. -/
theorem cell_of_le :
    ∀ (r : List Value) (j : Nat), r.length ≤ j → cell r j = Value.str "" := by
  intro r
  induction r with
  | nil => intro j _; rfl
  | cons w ws ih =>
    intro j h
    cases j with
    | zero => exact absurd h (by simp)
    | succ j => exact ih j (Nat.le_of_succ_le_succ h)

/-- `getD` through a `map` that fixes the default. -/
theorem getD_map_of_nil (f : List Value → List Value) (hf : f [] = []) :
    ∀ (l : List (List Value)) (i : Nat), (l.map f).getD i [] = f (l.getD i []) := by
  intro l
  induction l with
  | nil => intro i; simp [hf]
  | cons x xs ih =>
    intro i
    cases i with
    | zero => rfl
    | succ i => exact ih i

/-- C5: when the table has a `Type` column (position `j`), `load_data`
succeeds and produces a table with the same header and row count in which,
at every row position `i` and column position `j'`, the cell equals the
original cell except that a `Type` cell reading exactly "Clock Stops" is
replaced by "Non-Admitted Clock Stops"; no other cell is altered. -/
theorem load_data_renames_type (t : Table) (j i j' : Nat)
    (h : idxOf t.header "Type" = some j) :
    ∃ t', load_data t = some t' ∧ t'.header = t.header ∧
      t'.rows.length = t.rows.length ∧
      cell (t'.rows.getD i []) j' =
        (if j' = j ∧ cell (t.rows.getD i []) j = Value.str "Clock Stops"
         then Value.str "Non-Admitted Clock Stops"
         else cell (t.rows.getD i []) j') := by
  refine ⟨⟨t.header, t.rows.map fun r => setCell r j (replaceClockStops (cell r j))⟩,
    by unfold load_data; rw [h]; rfl, rfl, by simp, ?_⟩
  have hrows : ((t.rows.map fun r => setCell r j (replaceClockStops (cell r j))).getD i []) =
      setCell (t.rows.getD i []) j (replaceClockStops (cell (t.rows.getD i []) j)) :=
    getD_map_of_nil _ rfl t.rows i
  show cell ((t.rows.map fun r => setCell r j (replaceClockStops (cell r j))).getD i []) j' = _
  rw [hrows]
  by_cases hjj : j' = j
  · subst hjj
    by_cases hl : j' < (t.rows.getD i []).length
    · rw [cell_setCell_self _ _ _ hl]
      unfold replaceClockStops
      by_cases hcs : cell (t.rows.getD i []) j' = Value.str "Clock Stops"
      · simp [hcs]
      · simp [hcs]
    · have hle := Nat.le_of_not_lt hl
      rw [setCell_of_le _ _ _ hle]
      have hc := cell_of_le (t.rows.getD i []) j' hle
      rw [hc]
      simp
  · rw [cell_setCell_ne _ _ _ _ hjj]
    simp [hjj]

/-- A two-row table exercising both sides of the rename. -/
def loadExTable : Table :=
  ⟨["Type", "Month"],
   [[Value.str "Clock Stops", Value.str "Jan"],
    [Value.str "Admitted Clock Stops", Value.str "Jan"]]⟩

/-- Witness for `load_data_renames_type` at the `Type` cell of the first
row of `loadExTable`. -/
theorem load_data_renames_type_witness :
    idxOf loadExTable.header "Type" = some 0 ∧
    (∃ t', load_data loadExTable = some t' ∧ t'.header = loadExTable.header ∧
      t'.rows.length = loadExTable.rows.length ∧
      cell (t'.rows.getD 0 []) 0 =
        (if 0 = 0 ∧ cell (loadExTable.rows.getD 0 []) 0 = Value.str "Clock Stops"
         then Value.str "Non-Admitted Clock Stops"
         else cell (loadExTable.rows.getD 0 []) 0)) :=
  ⟨by decide, load_data_renames_type loadExTable 0 0 0 (by decide)⟩

/-! ## C6: column set, row subset, row count -/

/-- One dispatch-loop step keeps the header. -/
theorem applyFilterStep_header (t : Table) (c : String) (u : UserInput) :
    (applyFilterStep t c u).header = t.header := by
  rcases hidx : idxOf t.header c with _ | j <;> simp [applyFilterStep, hidx]

/-- One dispatch-loop step keeps a sublist of the rows. -/
theorem applyFilterStep_rows (t : Table) (c : String) (u : UserInput) :
    ∀ r ∈ (applyFilterStep t c u).rows, r ∈ t.rows := by
  intro r hr
  rcases hidx : idxOf t.header c with _ | j
  · simpa [applyFilterStep, hidx] using hr
  · simp [applyFilterStep, hidx] at hr
    exact hr.1

/-- One dispatch-loop step cannot grow the row count. -/
theorem applyFilterStep_len (t : Table) (c : String) (u : UserInput) :
    (applyFilterStep t c u).rows.length ≤ t.rows.length := by
  rcases hidx : idxOf t.header c with _ | j
  · simp [applyFilterStep, hidx]
  · simp only [applyFilterStep, hidx]
    exact List.length_filter_le _ _

/-- The whole dispatch loop keeps the header, keeps rows within the start
table's rows, and cannot grow the row count. -/
theorem filterFold_props (cs : List (String × UserInput)) :
    ∀ t0 : Table,
      (cs.foldl (fun acc cu => applyFilterStep acc cu.1 cu.2) t0).header = t0.header ∧
      (cs.foldl (fun acc cu => applyFilterStep acc cu.1 cu.2) t0).rows.length ≤
        t0.rows.length ∧
      ∀ r ∈ (cs.foldl (fun acc cu => applyFilterStep acc cu.1 cu.2) t0).rows, r ∈ t0.rows := by
  induction cs with
  | nil => intro t0; exact ⟨rfl, le_refl _, fun r hr => hr⟩
  | cons cu cs ih =>
    intro t0
    simp only [List.foldl_cons]
    obtain ⟨h1, h2, h3⟩ := ih (applyFilterStep t0 cu.1 cu.2)
    exact ⟨h1.trans (applyFilterStep_header t0 cu.1 cu.2),
           h2.trans (applyFilterStep_len t0 cu.1 cu.2),
           fun r hr => applyFilterStep_rows t0 cu.1 cu.2 r (h3 r hr)⟩

/-- Datetime normalization keeps the header. -/
theorem convertTable_header (t : Table) : (convertTable t).header = t.header := rfl

/-- Datetime normalization keeps the row count. -/
theorem convertTable_rows_length (t : Table) : (convertTable t).rows.length = t.rows.length := by
  simp [convertTable]

/-- The table whose single textual column parses as dates, used to refute
the row-subset claim. -/
def filterExTable : Table :=
  ⟨["D"], [[Value.str "2024-01-05"], [Value.str "2024-02-06"]]⟩

/-- C6 counterexample: with filtering enabled, the filtered version of
`filterExTable` keeps the header and row count but its rows are the
datetime-converted rows, which are not rows of the original table — the
claimed conjunction fails. -/
theorem filter_dataframe_not_row_subset :
    ¬ ((filter_dataframe true [("D", UserInput.noInput)] filterExTable).header =
         filterExTable.header ∧
       (filter_dataframe true [("D", UserInput.noInput)] filterExTable).rows.length ≤
         filterExTable.rows.length ∧
       ∀ r ∈ (filter_dataframe true [("D", UserInput.noInput)] filterExTable).rows,
         r ∈ filterExTable.rows) := by
  decide

/-- C6 amended: for every checkbox state, choice of filtered columns with
widget inputs, and table, the filtered table keeps the original column set
and has no more rows than the original, and each of its rows is a row of
the datetime-normalized original table (of the original itself when the
checkbox is off). -/
theorem filter_dataframe_header_rowsubset (m : Bool) (cs : List (String × UserInput))
    (t : Table) :
    (filter_dataframe m cs t).header = t.header ∧
    (filter_dataframe m cs t).rows.length ≤ t.rows.length ∧
    ∀ r ∈ (filter_dataframe m cs t).rows, r ∈ (if m then convertTable t else t).rows := by
  cases m with
  | false => exact ⟨rfl, le_refl _, fun r hr => hr⟩
  | true =>
    obtain ⟨h1, h2, h3⟩ := filterFold_props cs (convertTable t)
    refine ⟨h1.trans (convertTable_header t), ?_, h3⟩
    exact le_trans h2 (le_of_eq (convertTable_rows_length t))

/-! ## C7: idempotence of a fixed constraint set -/

/-- Whether a row passes every resolved constraint of the list (the
AND-composition applied by `applyConstraints`). -/
def rowPasses (hdr : List String) (cs : List (String × Constraint)) (r : List Value) : Bool :=
  cs.all fun ck =>
    match idxOf hdr ck.1 with
    | none => true
    | some j => constraintPred ck.2 (cell r j)

/-- Applying a constraint list is one filtering pass with `rowPasses`. -/
theorem applyConstraints_eq_filter :
    ∀ (cs : List (String × Constraint)) (hdr : List String) (rows : List (List Value)),
      applyConstraints cs ⟨hdr, rows⟩ = ⟨hdr, rows.filter (rowPasses hdr cs)⟩ := by
  intro cs
  induction cs with
  | nil =>
    intro hdr rows
    have hz : rows.filter (rowPasses hdr []) = rows :=
      List.filter_eq_self.mpr fun a _ => rfl
    show (⟨hdr, rows⟩ : Table) = _
    rw [hz]
  | cons ck cs ih =>
    intro hdr rows
    rcases hidx : idxOf hdr ck.1 with _ | j
    · have hstep : constraintStep ⟨hdr, rows⟩ ck.1 ck.2 = ⟨hdr, rows⟩ := by
        simp [constraintStep, hidx]
      calc applyConstraints (ck :: cs) ⟨hdr, rows⟩
          = applyConstraints cs (constraintStep ⟨hdr, rows⟩ ck.1 ck.2) := rfl
        _ = applyConstraints cs ⟨hdr, rows⟩ := by rw [hstep]
        _ = ⟨hdr, rows.filter (rowPasses hdr cs)⟩ := ih hdr rows
        _ = ⟨hdr, rows.filter (rowPasses hdr (ck :: cs))⟩ := by
              congr 1
              apply List.filter_congr
              intro r _
              simp [rowPasses, hidx]
    · have hstep : constraintStep ⟨hdr, rows⟩ ck.1 ck.2 =
          ⟨hdr, rows.filter fun r => constraintPred ck.2 (cell r j)⟩ := by
        simp [constraintStep, hidx]
      calc applyConstraints (ck :: cs) ⟨hdr, rows⟩
          = applyConstraints cs (constraintStep ⟨hdr, rows⟩ ck.1 ck.2) := rfl
        _ = ⟨hdr, ((rows.filter fun r => constraintPred ck.2 (cell r j)).filter
              (rowPasses hdr cs))⟩ := by rw [hstep]; exact ih hdr _
        _ = ⟨hdr, rows.filter (rowPasses hdr (ck :: cs))⟩ := by
              congr 1
              rw [List.filter_filter]
              apply List.filter_congr
              intro r _
              simp [rowPasses, hidx, List.all_cons, Bool.and_comm]

/-- C7: applying a fixed list of resolved constraints (allowed-value sets,
inclusive numeric ranges, inclusive date ranges, substring predicates,
AND-composed) to an already-filtered table returns that table unchanged —
filtering is idempotent. -/
theorem applyConstraints_idempotent (cs : List (String × Constraint)) (t : Table) :
    applyConstraints cs (applyConstraints cs t) = applyConstraints cs t := by
  obtain ⟨hdr, rows⟩ := t
  simp only [applyConstraints_eq_filter]
  congr 1
  rw [List.filter_filter]
  apply List.filter_congr
  intro a _
  exact Bool.and_self _
